import Mathlib

/-!
# Verification of the layered configuration merge system

A shallow embedding of the layered configuration merge engine described in
`spec.md` and exercised by `src/tests/common/test_configuration.py`
(`conda.common.configuration`).  Sources are ordered by priority
(highest-priority source first, as in the spec's `SourceSet` data model);
the test file's `raw_data` dicts list sources lowest-priority first, so a
dict `{"file1": ..., "file2": ...}` corresponds to the list
`[file2, file1]` here.

The merge semantics are modelled from the spec and refined to reproduce
every merge assertion in `src/tests/common/test_configuration.py`, which
is the repository code that fixes the behaviour (the implementation module
itself is not part of the excerpt).
-/

set_option autoImplicit false

namespace CondaConfig

universe u

variable {α : Type u} {σ : Type u}

/-- Modelled from the spec: the inline annotation flags `#!final`, `#!top`,
`#!bottom` attachable to a raw value node (`ParameterFlag` in
`conda.common.configuration`).  An unflagged node is `Option.none`. -/
inductive ParameterFlag where
  | final
  | top
  | bottom
deriving DecidableEq, Repr

/-- Concatenation of a list of lists (explicit recursion so proofs are
simple inductions). -/
def concatAll : List (List α) → List α
  | [] => []
  | l :: ls => l ++ concatAll ls

/-- Stable de-duplication: keep the first occurrence of each element,
carrying the set of already-seen elements. -/
def dedupAux [DecidableEq α] (seen : List α) : List α → List α
  | [] => []
  | a :: as => if a ∈ seen then dedupAux seen as else a :: dedupAux (a :: seen) as

/-- Modelled from the spec: stable de-duplication keeping first occurrence
(§3 "in-list duplicates removed keeping first occurrence"). -/
def dedupFirst [DecidableEq α] (l : List α) : List α := dedupAux [] l

/-- Remove from `l` every element that occurs in `rem`. -/
def removeAll [DecidableEq α] : List α → List α → List α
  | [], _ => []
  | a :: as, rem => if a ∈ rem then removeAll as rem else a :: removeAll as rem

/-- The seen-set after `dedupAux` has traversed `l`. -/
def pushAll [DecidableEq α] (seen : List α) : List α → List α
  | [] => seen
  | a :: as => pushAll (if a ∈ seen then seen else a :: seen) as

@[simp] theorem concatAll_nil : concatAll ([] : List (List α)) = [] := rfl

@[simp] theorem concatAll_cons (l : List α) (ls : List (List α)) :
    concatAll (l :: ls) = l ++ concatAll ls := rfl

theorem mem_concatAll {x : α} {ls : List (List α)} :
    x ∈ concatAll ls ↔ ∃ l ∈ ls, x ∈ l := by
  induction ls with
  | nil => simp
  | cons l ls ih => simp [ih]

theorem mem_pushAll [DecidableEq α] {x : α} {seen l : List α} :
    x ∈ pushAll seen l ↔ x ∈ seen ∨ x ∈ l := by
  induction l generalizing seen with
  | nil => simp [pushAll]
  | cons a as ih =>
    by_cases h : a ∈ seen
    · simp only [pushAll, if_pos h, ih, List.mem_cons]
      constructor
      · rintro (hx | hx)
        · exact Or.inl hx
        · exact Or.inr (Or.inr hx)
      · rintro (hx | hx | hx)
        · exact Or.inl hx
        · exact Or.inl (hx ▸ h)
        · exact Or.inr hx
    · simp only [pushAll, if_neg h, ih, List.mem_cons]
      tauto

theorem mem_dedupAux [DecidableEq α] {x : α} {seen l : List α} :
    x ∈ dedupAux seen l ↔ x ∈ l ∧ x ∉ seen := by
  induction l generalizing seen with
  | nil => simp [dedupAux]
  | cons a as ih =>
    rw [dedupAux]
    by_cases h : a ∈ seen
    · rw [if_pos h, ih]
      constructor
      · rintro ⟨hx, hs⟩
        exact ⟨List.mem_cons_of_mem _ hx, hs⟩
      · rintro ⟨hx, hs⟩
        rcases List.mem_cons.mp hx with rfl | hx
        · exact absurd h hs
        · exact ⟨hx, hs⟩
    · rw [if_neg h]
      constructor
      · intro hx
        rcases List.mem_cons.mp hx with rfl | hx
        · exact ⟨List.mem_cons_self _ _, h⟩
        · rcases ih.mp hx with ⟨h1, h2⟩
          exact ⟨List.mem_cons_of_mem _ h1, fun hc => h2 (List.mem_cons_of_mem _ hc)⟩
      · rintro ⟨hx, hs⟩
        rcases List.mem_cons.mp hx with rfl | hx
        · exact List.mem_cons_self _ _
        · by_cases hxa : x = a
          · subst hxa; exact List.mem_cons_self _ _
          · refine List.mem_cons_of_mem _ (ih.mpr ⟨hx, fun hc => ?_⟩)
            rcases List.mem_cons.mp hc with h1 | h2
            · exact hxa h1
            · exact hs h2

theorem mem_dedupFirst [DecidableEq α] {x : α} {l : List α} :
    x ∈ dedupFirst l ↔ x ∈ l := by
  simp [dedupFirst, mem_dedupAux]

theorem dedupAux_append [DecidableEq α] (seen t m : List α) :
    dedupAux seen (t ++ m) = dedupAux seen t ++ dedupAux (pushAll seen t) m := by
  induction t generalizing seen with
  | nil => simp [dedupAux, pushAll]
  | cons a as ih =>
    by_cases h : a ∈ seen
    · simp [dedupAux, if_pos h, ih, pushAll, h]
    · simp [dedupAux, if_neg h, ih, pushAll, h]

theorem mem_removeAll [DecidableEq α] {x : α} {l rem : List α} :
    x ∈ removeAll l rem ↔ x ∈ l ∧ x ∉ rem := by
  induction l with
  | nil => simp [removeAll]
  | cons a as ih =>
    by_cases h : a ∈ rem
    · simp only [removeAll, if_pos h, ih, List.mem_cons]
      constructor
      · rintro ⟨hx, hr⟩; exact ⟨Or.inr hx, hr⟩
      · rintro ⟨hx | hx, hr⟩
        · exact absurd (hx ▸ h) hr
        · exact ⟨hx, hr⟩
    · simp only [removeAll, if_neg h, List.mem_cons, ih]
      constructor
      · rintro (rfl | ⟨hx, hr⟩)
        · exact ⟨Or.inl rfl, h⟩
        · exact ⟨Or.inr hx, hr⟩
      · rintro ⟨rfl | hx, hr⟩
        · exact Or.inl rfl
        · exact Or.inr ⟨hx, hr⟩

theorem removeAll_append [DecidableEq α] (a b rem : List α) :
    removeAll (a ++ b) rem = removeAll a rem ++ removeAll b rem := by
  induction a with
  | nil => simp [removeAll]
  | cons x xs ih =>
    by_cases h : x ∈ rem <;> simp [removeAll, h, ih]

@[simp] theorem removeAll_nil_right [DecidableEq α] (l : List α) :
    removeAll l [] = l := by
  induction l with
  | nil => rfl
  | cons a as ih => simp [removeAll, ih]

theorem dedupAux_of_nodup [DecidableEq α] {seen l : List α}
    (hn : l.Nodup) (hs : ∀ x ∈ l, x ∉ seen) : dedupAux seen l = l := by
  induction l generalizing seen with
  | nil => rfl
  | cons a as ih =>
    have ha : a ∉ seen := hs a (List.mem_cons_self a as)
    rw [dedupAux, if_neg ha]
    congr 1
    refine ih hn.of_cons (fun x hx => ?_)
    intro hc
    rcases List.mem_cons.mp hc with rfl | hc
    · exact (List.nodup_cons.mp hn).1 hx
    · exact hs x (List.mem_cons_of_mem _ hx) hc

/-! ## Sequence merge -/

/-- Modelled from the spec: one source's contribution to a sequence-typed
parameter — the optional `#!final` flag on the whole sequence plus the
items in source order, each with its optional item flag (§3 RawValue,
§4.2 Sequence).  Items are the string scalars of the element type. -/
structure SeqSource where
  keyFinal : Bool
  items : List (String × Option ParameterFlag)
deriving DecidableEq, Repr

/-- The items of a contribution carrying a given flag, in source order. -/
def flaggedItems (fl : ParameterFlag) : List (String × Option ParameterFlag) → List String
  | [] => []
  | (v, f) :: rest =>
      if f = some fl then v :: flaggedItems fl rest else flaggedItems fl rest

/-- All items of a contribution, in source order, flags forgotten. -/
def allItems (l : List (String × Option ParameterFlag)) : List String :=
  l.map Prod.fst

/-- Matches kept once a `#!final` is encountered: scanning from the
lowest-priority source upward, keep everything up to and including the
first `final`-flagged match (the behaviour fixed by
`test_list_merges`/`test_important_primitive_map_merges`). -/
def takeToFirstFinal (p : σ → Bool) : List σ → List σ
  | [] => []
  | s :: rest => if p s then [s] else s :: takeToFirstFinal p rest

/-- Modelled from the spec: the sources that actually participate in a
merge, given highest-priority-first ordering.  A `final` flag discards
every source of strictly higher priority than the lowest-priority
`final`-flagged source (§3; behaviour fixed by the truncation assertions
of `test_list_merges` lines 523–533). -/
def relevantSources (p : σ → Bool) (l : List σ) : List σ :=
  (takeToFirstFinal p l.reverse).reverse

/-- The sources participating in a sequence merge. -/
def seqRel (sources : List SeqSource) : List SeqSource :=
  relevantSources (·.keyFinal) sources

/-- The `#!top`-flagged items of the participating sources, collected in
ascending priority order (lowest-priority source first). -/
def seqTopsRaw (sources : List SeqSource) : List String :=
  concatAll ((seqRel sources).reverse.map (fun s => flaggedItems .top s.items))

/-- All items of the participating sources, concatenated in descending
priority order (highest-priority source first). -/
def seqMiddleRaw (sources : List SeqSource) : List String :=
  concatAll ((seqRel sources).map (fun s => allItems s.items))

/-- The `#!bottom`-flagged items of the participating sources, collected
in descending priority order. -/
def seqBottomsRaw (sources : List SeqSource) : List String :=
  concatAll ((seqRel sources).map (fun s => flaggedItems .bottom s.items))

/-- The de-duplicated tail of `#!bottom`-flagged items. -/
def seqBottoms (sources : List SeqSource) : List String :=
  dedupFirst (seqBottomsRaw sources)

/-- Modelled from the spec: the flag-aware sequence merge (§3, §4.2),
refined to reproduce every assertion of `test_list_merges`:
`top`-flagged items are collected in ascending priority order and
prepended; all items are then concatenated in descending priority order
(highest first) with stable de-duplication; `bottom`-flagged items
(collected in descending priority order) are pulled out of that list and
appended at the end, a `bottom` flag prevailing over a `top` flag for the
same item. -/
def mergeSequence (sources : List SeqSource) : List String :=
  removeAll (dedupFirst (seqTopsRaw sources ++ seqMiddleRaw sources))
      (seqBottoms sources) ++
    seqBottoms sources

/-! ### The `channels` fixtures of `_TEST_YAML_RAW`

The `channels`/`channels_altname` sequences of the test fixtures
`file1` … `file9`, with their `#!final`/`#!top`/`#!bottom` annotations. -/

/-- `file1`'s `channels_altname: [bugs, daffy, tweety]`. -/
def file1channels : SeqSource :=
  ⟨false, [("bugs", none), ("daffy", none), ("tweety", none)]⟩

/-- `file2`'s `channels: [porky, bugs, elmer]`. -/
def file2channels : SeqSource :=
  ⟨false, [("porky", none), ("bugs", none), ("elmer", none)]⟩

/-- `file3`'s `channels: [wile #!top, daffy, foghorn]`. -/
def file3channels : SeqSource :=
  ⟨false, [("wile", some .top), ("daffy", none), ("foghorn", none)]⟩

/-- `file4`'s `channels: #!final [pepé, marv, sam]`. -/
def file4channels : SeqSource :=
  ⟨true, [("pepé", none), ("marv", none), ("sam", none)]⟩

/-- `file5`'s `channels: [pepé, marv #!top, sam]`. -/
def file5channels : SeqSource :=
  ⟨false, [("pepé", none), ("marv", some .top), ("sam", none)]⟩

/-- `file6`'s `channels: [elmer, marv #!bottom, bugs]`. -/
def file6channels : SeqSource :=
  ⟨false, [("elmer", none), ("marv", some .bottom), ("bugs", none)]⟩

/-- `file7`'s `channels: [wile, daffy #!top, sam #!top, foghorn]`. -/
def file7channels : SeqSource :=
  ⟨false, [("wile", none), ("daffy", some .top), ("sam", some .top), ("foghorn", none)]⟩

/-- `file8`'s `channels: [pepé #!bottom, marv #!top, wile, sam]`. -/
def file8channels : SeqSource :=
  ⟨false, [("pepé", some .bottom), ("marv", some .top), ("wile", none), ("sam", none)]⟩

/-- `file9`'s `channels: #!final [sam, pepé, marv #!top, daffy #!bottom]`. -/
def file9channels : SeqSource :=
  ⟨true, [("sam", none), ("pepé", none), ("marv", some .top), ("daffy", some .bottom)]⟩

/-! ## Map merge -/

/-- Modelled from the spec: one source's contribution to a map-typed
parameter — the optional `#!final` flag on the whole map plus the entries
`key ↦ (value, entry flag)` in source order (§3 RawValue, §4.2 Map). -/
structure MapSource where
  keyFinal : Bool
  entries : List (String × String × Option ParameterFlag)
deriving DecidableEq, Repr

/-- The entry of a map contribution under key `k`, if any. -/
def lookupEntry (k : String) (s : MapSource) : Option (String × Option ParameterFlag) :=
  (s.entries.find? (fun e => e.1 = k)).map Prod.snd

/-- Resolve one key from the per-source hits `(whole-map final, entry)`,
listed highest-priority-first: truncate at the lowest-priority whole-map
`final`, then the lowest-priority entry flagged `#!final` wins; absent
any `final` the highest-priority entry wins. -/
def resolveKeyHits (hits : List (Bool × Option (String × Option ParameterFlag))) :
    Option String :=
  let rel := relevantSources (·.1) hits
  let found := rel.filterMap Prod.snd
  match (found.filter (fun e => e.2 = some ParameterFlag.final)).getLast? with
  | some e => some e.1
  | none => found.head?.map Prod.fst

/-- Modelled from the spec: the per-key map merge (§3 "Map merge"), for
sources listed highest-priority-first.  Behaviour fixed by
`test_important_primitive_map_merges`: a whole-map `#!final` discards all
higher-priority sources; an entry-level `#!final` wins for its key, the
lowest-priority `final` prevailing; otherwise the highest-priority entry
wins, independently per key. -/
def resolveMapKey (sources : List MapSource) (k : String) : Option String :=
  resolveKeyHits (sources.map (fun s => (s.keyFinal, lookupEntry k s)))

/-- The keys contributed by the participating sources, highest priority
first, de-duplicated. -/
def mapUnionKeys (sources : List MapSource) : List String :=
  dedupFirst (concatAll ((relevantSources (·.keyFinal) sources).map
    (fun s => s.entries.map Prod.fst)))

/-- The merged map as an association list over the union of keys. -/
def mergeMap (sources : List MapSource) : List (String × String) :=
  (mapUnionKeys sources).filterMap
    (fun k => (resolveMapKey sources k).map (fun v => (k, v)))

/-! ## Primitive merge -/

/-- Modelled from the spec: the primitive merge over per-source scalar
hits `(value, final?)` listed highest-priority-first (§4.2 Primitive), as
fixed by `test_important_primitive_map_merges` lines 505–509: the
lowest-priority `#!final`-flagged value wins; absent any `final` the
highest-priority value wins. -/
def mergePrimitive (hits : List (String × Bool)) : Option String :=
  match (hits.filter (fun h => h.2)).getLast? with
  | some f => some f.1
  | none => hits.head?.map Prod.fst

/-! ## Raw sources, aliases and typed resolution -/

/-- Modelled from the spec: errors surfaced by resolution (§7):
`multipleKeys` is the `ValidationError` raised when several aliases of one
parameter are defined, `invalidType` the shape mismatch
`InvalidTypeError`, `validation` the semantic `ValidationError`. -/
inductive ConfigError where
  | multipleKeys (keys : List String)
  | invalidType (key : String)
  | validation (key : String)
deriving DecidableEq, Repr

/-- Modelled from the spec: a parsed raw value node — scalar, sequence or
map — with per-node flags (§3 RawValue; nesting beyond one level is not
needed by the claims and is omitted). -/
inductive RawNode where
  | scalar (v : String) (flag : Option ParameterFlag)
  | seq (items : List (String × Option ParameterFlag)) (flag : Option ParameterFlag)
  | mapn (entries : List (String × String × Option ParameterFlag)) (flag : Option ParameterFlag)
deriving DecidableEq, Repr

/-- One raw source: a mapping from key to raw node (assoc list). -/
abbrev RawSource := List (String × RawNode)

/-- The name-or-alias keys a source defines, in declaration order of the
alias list. -/
def definedAliases (names : List String) (src : RawSource) : List String :=
  names.filter (fun n => (src.lookup n).isSome)

/-- Modelled from the spec, as fixed by `test_validation`
(`too_many_aliases`) together with `test_important_primitive_map_merges`
lines 480–485: each *single* source may define at most one of a
parameter's name-or-alias keys; defining two or more in one source is a
`ValidationError`, while different sources may use different aliases. -/
def singleSourceMatch (names : List String) (src : RawSource) :
    Except ConfigError (Option RawNode) :=
  match definedAliases names src with
  | [] => .ok none
  | [k] => .ok (src.lookup k)
  | ks => .error (.multipleKeys ks)

/-- Collect the raw matches for a parameter across sources (highest
priority first), erroring if any single source defines several aliases. -/
def collectMatches (names : List String) : List RawSource → Except ConfigError (List RawNode)
  | [] => .ok []
  | src :: rest => do
    let hit ← singleSourceMatch names src
    let tail ← collectMatches names rest
    match hit with
    | some n => .ok (n :: tail)
    | none => .ok tail

/-- Map a fallible conversion over a list, failing on the first error. -/
def exceptMapM {β : Type} (f : RawNode → Except ConfigError β) :
    List RawNode → Except ConfigError (List β)
  | [] => .ok []
  | n :: ns => do
    let b ← f n
    let bs ← exceptMapM f ns
    .ok (b :: bs)

/-- Shape-check a raw node as a sequence contribution. -/
def toSeqSource (key : String) : RawNode → Except ConfigError SeqSource
  | .seq items flag => .ok ⟨flag = some ParameterFlag.final, items⟩
  | _ => .error (.invalidType key)

/-- Shape-check a raw node as a map contribution. -/
def toMapSource (key : String) : RawNode → Except ConfigError MapSource
  | .mapn entries flag => .ok ⟨flag = some ParameterFlag.final, entries⟩
  | _ => .error (.invalidType key)

/-- Shape-check a raw node as a scalar hit `(value, final?)`. -/
def toScalarHit (key : String) : RawNode → Except ConfigError (String × Bool)
  | .scalar v flag => .ok (v, flag = some ParameterFlag.final)
  | _ => .error (.invalidType key)

/-- Modelled from the spec: boolean coercion (§8): `true`/`yes`/`1`
case-insensitively are `true`, `false`/`no`/`0` are `false`, anything
else is a `ValidationError`. -/
def coerceBool (s : String) : Option Bool :=
  let t := String.mk (s.toList.map Char.toLower)
  if t = "true" ∨ t = "yes" ∨ t = "1" then some true
  else if t = "false" ∨ t = "no" ∨ t = "0" then some false
  else none

/-- The numeric value of a digit list, most significant digit first. -/
def digitsToNat (l : List Char) : Nat :=
  l.foldl (fun n c => n * 10 + (c.toNat - '0'.toNat)) 0

/-- Integer coercion: the literal must be an optionally-signed run of
decimal digits. -/
def coerceInt (s : String) : Option Int :=
  match s.toList with
  | [] => none
  | '-' :: ds =>
    if ds ≠ [] ∧ ds.all Char.isDigit then some (-(digitsToNat ds : Int)) else none
  | ds => if ds.all Char.isDigit then some (digitsToNat ds : Int) else none

/-- Resolve a boolean primitive parameter: collect matches for the name
and its aliases (highest-priority source first), merge, coerce, falling
back to the declared default when no source defines the key. -/
def resolveBoolParam (name : String) (aliases : List String) (dflt : Bool)
    (sources : List RawSource) : Except ConfigError Bool := do
  let ms ← collectMatches (name :: aliases) sources
  let hits ← exceptMapM (toScalarHit name) ms
  match mergePrimitive hits with
  | none => .ok dflt
  | some v =>
    match coerceBool v with
    | some b => .ok b
    | none => .error (.validation name)

/-- Resolve an integer primitive parameter. -/
def resolveIntParam (name : String) (aliases : List String) (dflt : Int)
    (sources : List RawSource) : Except ConfigError Int := do
  let ms ← collectMatches (name :: aliases) sources
  let hits ← exceptMapM (toScalarHit name) ms
  match mergePrimitive hits with
  | none => .ok dflt
  | some v =>
    match coerceInt v with
    | some i => .ok i
    | none => .error (.validation name)

/-- Resolve a sequence-of-string parameter. -/
def resolveSeqParam (name : String) (aliases : List String)
    (sources : List RawSource) : Except ConfigError (List String) := do
  let ms ← collectMatches (name :: aliases) sources
  let ss ← exceptMapM (toSeqSource name) ms
  .ok (mergeSequence ss)

/-- Resolve a map-of-string parameter. -/
def resolveMapStrParam (name : String) (aliases : List String)
    (sources : List RawSource) : Except ConfigError (List (String × String)) := do
  let ms ← collectMatches (name :: aliases) sources
  let ss ← exceptMapM (toMapSource name) ms
  .ok (mergeMap ss)

/-- Coerce every value of a merged map, failing on the first bad value. -/
def coerceMapBool (name : String) : List (String × String) →
    Except ConfigError (List (String × Bool))
  | [] => .ok []
  | (k, v) :: rest =>
    match coerceBool v with
    | none => .error (.validation name)
    | some b => do
      let tail ← coerceMapBool name rest
      .ok ((k, b) :: tail)

/-- Resolve a map-of-boolean parameter. -/
def resolveMapBoolParam (name : String) (aliases : List String)
    (sources : List RawSource) : Except ConfigError (List (String × Bool)) := do
  let ms ← collectMatches (name :: aliases) sources
  let ss ← exceptMapM (toMapSource name) ms
  coerceMapBool name (mergeMap ss)

/-! ## Whole-configuration validation -/

/-- The parameter types needed by the sample schema. -/
inductive ParamType where
  | pbool (dflt : Bool)
  | pint (dflt : Int)
  | pseqStr
  | pmapStr
  | pmapBool
deriving DecidableEq, Repr

/-- A declared parameter: name, aliases, type (§3 ParameterSpec). -/
structure ParamSpec where
  name : String
  aliases : List String
  ptype : ParamType
deriving DecidableEq, Repr

/-- A resolved, type-validated value. -/
inductive ResolvedValue where
  | vbool (b : Bool)
  | vint (i : Int)
  | vseq (l : List String)
  | vmapStr (m : List (String × String))
  | vmapBool (m : List (String × Bool))
deriving DecidableEq, Repr

/-- Resolve one declared parameter against the source set. -/
def resolveParam (p : ParamSpec) (sources : List RawSource) :
    Except ConfigError ResolvedValue :=
  match p.ptype with
  | .pbool dflt => (resolveBoolParam p.name p.aliases dflt sources).map .vbool
  | .pint dflt => (resolveIntParam p.name p.aliases dflt sources).map .vint
  | .pseqStr => (resolveSeqParam p.name p.aliases sources).map .vseq
  | .pmapStr => (resolveMapStrParam p.name p.aliases sources).map .vmapStr
  | .pmapBool => (resolveMapBoolParam p.name p.aliases sources).map .vmapBool

/-- Modelled from the spec: `validate_configuration()` eagerly resolves
every declared parameter and collects *all* failures into one aggregate
error instead of raising on the first (§4.4, §7; `test_validate_all`). -/
def validateConfiguration (schema : List ParamSpec) (sources : List RawSource) :
    Except (List (String × ConfigError)) Unit :=
  match schema.filterMap
      (fun p => match resolveParam p sources with
        | .error e => some (p.name, e)
        | .ok _ => none) with
  | [] => .ok ()
  | errs => .error errs

/-! ## Environment-variable sources -/

/-- Upper-case a string character by character. -/
def strUpper (s : String) : String :=
  String.mk (s.toList.map Char.toUpper)

/-- Modelled from the spec: environment variable naming
`{APP_NAME upper-cased}_{PARAMETER_NAME upper-cased}` (§6). -/
def envKey (appName key : String) : String :=
  strUpper appName ++ "_" ++ strUpper key

/-- The default sequence delimiter for environment values (§6). -/
def defaultDelim : Char := ','

/-- Split a character list at every occurrence of the delimiter. -/
def splitOnDelim (delim : Char) : List Char → List (List Char)
  | [] => [[]]
  | c :: cs =>
    if c = delim then [] :: splitOnDelim delim cs
    else
      match splitOnDelim delim cs with
      | [] => [[c]]
      | p :: ps => (c :: p) :: ps

/-- Modelled from the spec: the raw string of a sequence-typed
environment variable resolves to the empty sequence when empty, and is
otherwise split on the delimiter, one element per delimited segment
(§4.1; `test_env_var_config_empty_sequence` and friends). -/
def envSeqValue (raw : String) : List String :=
  if raw = "" then []
  else (splitOnDelim defaultDelim raw.toList).map (fun l => String.mk l)

/-- Look up a sequence-typed parameter in an environment snapshot
(name-value pairs) under its `{APPNAME}_{KEY}` variable and parse it. -/
def loadEnvSeqParam (appName key : String) (env : List (String × String)) :
    Option (List String) :=
  (env.lookup (envKey appName key)).map envSeqValue

/-! ## Raw fixtures from `_TEST_YAML_RAW` -/

/-- The raw source `file1`. -/
def file1Raw : RawSource :=
  [("always_yes", .scalar "no" none),
   ("proxy_servers", .mapn
      [("http", "taz", none), ("https", "sly", none), ("s3", "pepé", none)] none),
   ("channels_altname", .seq file1channels.items none)]

/-- The raw source `file2`. -/
def file2Raw : RawSource :=
  [("always_yes", .scalar "yes" none),
   ("changeps1", .scalar "no" none),
   ("proxy_servers", .mapn [("http", "marv", none), ("https", "sam", none)] none),
   ("channels", .seq file2channels.items none)]

/-- The raw source `file3` (`always_yes_altname2: yes #!final`,
`http: foghorn #!final`, `wile #!top`). -/
def file3Raw : RawSource :=
  [("always_yes_altname2", .scalar "yes" (some .final)),
   ("proxy_servers", .mapn
      [("http", "foghorn", some .final), ("https", "elmer", none),
       ("s3", "porky", none)] none),
   ("channels", .seq file3channels.items none)]

/-- The raw source `file4` (everything `#!final`). -/
def file4Raw : RawSource :=
  [("always_yes", .scalar "yes" (some .final)),
   ("changeps1", .scalar "no" (some .final)),
   ("proxy_servers", .mapn
      [("http", "bugs", none), ("https", "daffy", none)] (some .final)),
   ("channels", .seq file4channels.items (some .final))]

/-- The raw source `file9` (`channels: #!final`, `marv #!top`,
`daffy #!bottom`). -/
def file9Raw : RawSource :=
  [("channels", .seq file9channels.items (some .final))]

/-- The raw source `good_boolean_map`. -/
def goodBooleanMapRaw : RawSource :=
  [("boolean_map", .mapn
      [("a_true", "true", none), ("a_yes", "yes", none), ("a_1", "1", none),
       ("a_false", "False", none), ("a_no", "no", none), ("a_0", "0", none)] none)]

/-- The raw source `too_many_aliases`
(`always_yes: yes` and `always_yes_altname2: yes` in one document). -/
def tooManyAliasesRaw : RawSource :=
  [("always_yes", .scalar "yes" none),
   ("always_yes_altname2", .scalar "yes" none)]

/-- The raw source `bad_boolean` (`always_yes: yeah`). -/
def badBooleanRaw : RawSource :=
  [("always_yes", .scalar "yeah" none)]

/-- The raw source `not_an_int` (`always_an_int: nope`). -/
def notAnIntRaw : RawSource :=
  [("always_an_int", .scalar "nope" none)]

/-- The aliases declared for `always_yes` in `SampleConfiguration`. -/
def alwaysYesAliases : List String :=
  ["always_yes_altname1", "yes", "always_yes_altname2"]

/-- The `SampleConfiguration` parameters the claims exercise. -/
def sampleSchema : List ParamSpec :=
  [⟨"always_yes", alwaysYesAliases, .pbool false⟩,
   ⟨"changeps1", [], .pbool true⟩,
   ⟨"always_an_int", [], .pint 0⟩,
   ⟨"proxy_servers", [], .pmapStr⟩,
   ⟨"channels", ["channels_altname"], .pseqStr⟩,
   ⟨"boolean_map", [], .pmapBool⟩]

/-! ## General lemmas about the merge -/

/-- `x` is flagged `#!top` by one of the given sources. -/
def topFlaggedIn (sources : List SeqSource) (x : String) : Prop :=
  ∃ s ∈ sources, x ∈ flaggedItems ParameterFlag.top s.items

/-- `x` is flagged `#!bottom` by one of the given sources. -/
def bottomFlaggedIn (sources : List SeqSource) (x : String) : Prop :=
  ∃ s ∈ sources, x ∈ flaggedItems ParameterFlag.bottom s.items

instance (sources : List SeqSource) (x : String) :
    Decidable (topFlaggedIn sources x) :=
  inferInstanceAs (Decidable (∃ s ∈ sources, _ ∈ flaggedItems _ s.items))

instance (sources : List SeqSource) (x : String) :
    Decidable (bottomFlaggedIn sources x) :=
  inferInstanceAs (Decidable (∃ s ∈ sources, _ ∈ flaggedItems _ s.items))

theorem flaggedItems_of_unflagged (fl : ParameterFlag)
    (l : List (String × Option ParameterFlag)) (h : ∀ p ∈ l, p.2 = none) :
    flaggedItems fl l = [] := by
  induction l with
  | nil => rfl
  | cons p ps ih =>
    obtain ⟨v, f⟩ := p
    have hf : f = none := h (v, f) (List.mem_cons_self _ _)
    subst hf
    simp only [flaggedItems, reduceCtorEq, if_false]
    exact ih (fun q hq => h q (List.mem_cons_of_mem _ hq))

theorem concatAll_map_eq_nil {β : Type} (f : β → List α) (l : List β)
    (h : ∀ x ∈ l, f x = []) : concatAll (l.map f) = [] := by
  induction l with
  | nil => rfl
  | cons b bs ih =>
    simp only [List.map_cons, concatAll_cons, h b (List.mem_cons_self _ _),
      List.nil_append]
    exact ih (fun x hx => h x (List.mem_cons_of_mem _ hx))

theorem mem_concat_flagged {fl : ParameterFlag} {rel : List SeqSource} {x : String} :
    x ∈ concatAll (rel.map (fun s => flaggedItems fl s.items)) ↔
      ∃ s ∈ rel, x ∈ flaggedItems fl s.items := by
  rw [mem_concatAll]
  constructor
  · rintro ⟨l, hl, hx⟩
    rcases List.mem_map.mp hl with ⟨s, hs, rfl⟩
    exact ⟨s, hs, hx⟩
  · rintro ⟨s, hs, hx⟩
    exact ⟨_, List.mem_map.mpr ⟨s, hs, rfl⟩, hx⟩

theorem mem_concat_flagged_reverse {fl : ParameterFlag} {rel : List SeqSource}
    {x : String} :
    x ∈ concatAll (rel.reverse.map (fun s => flaggedItems fl s.items)) ↔
      ∃ s ∈ rel, x ∈ flaggedItems fl s.items := by
  rw [mem_concat_flagged]
  constructor
  · rintro ⟨s, hs, hx⟩
    exact ⟨s, List.mem_reverse.mp hs, hx⟩
  · rintro ⟨s, hs, hx⟩
    exact ⟨s, List.mem_reverse.mpr hs, hx⟩

theorem takeToFirstFinal_of_no_final (p : σ → Bool) (l : List σ)
    (h : ∀ x ∈ l, p x = false) : takeToFirstFinal p l = l := by
  induction l with
  | nil => rfl
  | cons a as ih =>
    rw [takeToFirstFinal, if_neg (by simp [h a (List.mem_cons_self _ _)])]
    rw [ih (fun x hx => h x (List.mem_cons_of_mem _ hx))]

theorem relevantSources_of_no_final (p : σ → Bool) (l : List σ)
    (h : ∀ x ∈ l, p x = false) : relevantSources p l = l := by
  unfold relevantSources
  rw [takeToFirstFinal_of_no_final p _ (fun x hx => h x (List.mem_reverse.mp hx)),
    List.reverse_reverse]

theorem takeToFirstFinal_append (p : σ → Bool) (l m : List σ) (s : σ)
    (hl : ∀ x ∈ l, p x = false) (hs : p s = true) :
    takeToFirstFinal p (l ++ s :: m) = l ++ [s] := by
  induction l with
  | nil => simp [takeToFirstFinal, hs]
  | cons a as ih =>
    rw [List.cons_append, takeToFirstFinal,
      if_neg (by simp [hl a (List.mem_cons_self _ _)]),
      ih (fun x hx => hl x (List.mem_cons_of_mem _ hx)), List.cons_append]

/-- A `final`-flagged source discards everything of strictly higher
priority: the participating sources are the lowest-priority
`final`-flagged source together with all sources below it. -/
theorem relevantSources_last_final (p : σ → Bool) (pre post : List σ) (s : σ)
    (hs : p s = true) (hpost : ∀ t ∈ post, p t = false) :
    relevantSources p (pre ++ s :: post) = s :: post := by
  unfold relevantSources
  rw [List.reverse_append, List.reverse_cons, List.append_assoc,
    List.singleton_append,
    takeToFirstFinal_append p _ _ s (fun x hx => hpost x (List.mem_reverse.mp hx)) hs,
    List.reverse_append, List.reverse_reverse]
  rfl

/-- Decomposition of the merged sequence into its top, middle and bottom
segments. -/
theorem mergeSequence_decomp (sources : List SeqSource) :
    mergeSequence sources =
      removeAll (dedupAux [] (seqTopsRaw sources)) (seqBottoms sources) ++
        (removeAll
            (dedupAux (pushAll [] (seqTopsRaw sources)) (seqMiddleRaw sources))
            (seqBottoms sources) ++
          seqBottoms sources) := by
  rw [mergeSequence, dedupFirst, dedupAux_append, removeAll_append,
    List.append_assoc]

theorem mem_seqTopsRaw {sources : List SeqSource} {x : String} :
    x ∈ seqTopsRaw sources ↔ topFlaggedIn (seqRel sources) x := by
  unfold seqTopsRaw topFlaggedIn
  exact mem_concat_flagged_reverse

theorem mem_seqBottomsRaw {sources : List SeqSource} {x : String} :
    x ∈ seqBottomsRaw sources ↔ bottomFlaggedIn (seqRel sources) x := by
  unfold seqBottomsRaw bottomFlaggedIn
  exact mem_concat_flagged

theorem mem_seqBottoms {sources : List SeqSource} {x : String} :
    x ∈ seqBottoms sources ↔ bottomFlaggedIn (seqRel sources) x := by
  rw [seqBottoms, dedupFirst]
  rw [mem_dedupAux]
  simp [mem_seqBottomsRaw]

/-- In a merged sequence, an item flagged `#!bottom` by a participating
source follows every item not flagged `#!bottom` by any participating
source. -/
theorem mergeSequence_bottom_follows (sources : List SeqSource) {x y : String}
    (hb : bottomFlaggedIn (seqRel sources) x)
    (hy : y ∈ mergeSequence sources)
    (hnb : ¬ bottomFlaggedIn (seqRel sources) y) :
    List.Sublist [y, x] (mergeSequence sources) := by
  have hxB : x ∈ seqBottoms sources := mem_seqBottoms.mpr hb
  have hyB : y ∉ seqBottoms sources := fun hc => hnb (mem_seqBottoms.mp hc)
  unfold mergeSequence at hy ⊢
  have hyM : y ∈ removeAll
      (dedupFirst (seqTopsRaw sources ++ seqMiddleRaw sources))
      (seqBottoms sources) := by
    rcases List.mem_append.mp hy with h | h
    · exact h
    · exact absurd h hyB
  exact List.Sublist.append (List.singleton_sublist.mpr hyM)
    (List.singleton_sublist.mpr hxB)

/-- In a merged sequence, an item flagged `#!top` (and not `#!bottom`) by
a participating source precedes every item not flagged `#!top` by any
participating source. -/
theorem mergeSequence_top_precedes (sources : List SeqSource) {x y : String}
    (hx : topFlaggedIn (seqRel sources) x)
    (hxb : ¬ bottomFlaggedIn (seqRel sources) x)
    (hy : y ∈ mergeSequence sources)
    (hyt : ¬ topFlaggedIn (seqRel sources) y) :
    List.Sublist [x, y] (mergeSequence sources) := by
  have hxT : x ∈ seqTopsRaw sources := mem_seqTopsRaw.mpr hx
  have hxB : x ∉ seqBottoms sources := fun hc => hxb (mem_seqBottoms.mp hc)
  have hyT : y ∉ seqTopsRaw sources := fun hc => hyt (mem_seqTopsRaw.mp hc)
  rw [mergeSequence_decomp] at hy ⊢
  have hxA : x ∈ removeAll (dedupAux [] (seqTopsRaw sources)) (seqBottoms sources) :=
    mem_removeAll.mpr ⟨mem_dedupAux.mpr ⟨hxT, by simp⟩, hxB⟩
  have hyRest : y ∈ removeAll
      (dedupAux (pushAll [] (seqTopsRaw sources)) (seqMiddleRaw sources))
      (seqBottoms sources) ++ seqBottoms sources := by
    rcases List.mem_append.mp hy with h | h
    · exact absurd (mem_dedupAux.mp (mem_removeAll.mp h).1).1 hyT
    · exact h
  exact List.Sublist.append (List.singleton_sublist.mpr hxA)
    (List.singleton_sublist.mpr hyRest)

/-! ## Fidelity: representative test assertions reproduced by the model -/

/-- `test_list_merges` `{"file5": …, "file3": …}`: the model reproduces
the asserted merged channel list. -/
theorem fidelity_list_merge_file5_file3 :
    mergeSequence [file3channels, file5channels] =
      ["marv", "wile", "daffy", "foghorn", "pepé", "sam"] := by rfl

/-- `test_list_merges` `{"file7": …, "file8": …, "file9": …}`. -/
theorem fidelity_list_merge_pinning :
    mergeSequence [file9channels, file8channels, file7channels] =
      ["sam", "marv", "wile", "foghorn", "daffy", "pepé"] := by rfl

/-- `test_important_primitive_map_merges` `{"file1","file3","file2"}`:
the `#!final` entry `http: foghorn` wins against the higher-priority
`file2`. -/
theorem fidelity_proxy_servers_final_entry :
    resolveMapStrParam "proxy_servers" [] [file2Raw, file3Raw, file1Raw] =
      .ok [("http", "foghorn"), ("https", "sam"), ("s3", "porky")] := by rfl

/-- `test_important_primitive_map_merges` `{"file3","file1"}`: the
lower-priority `#!final` scalar in `file3` beats `file1`. -/
theorem fidelity_primitive_lower_final_wins :
    resolveBoolParam "always_yes" alwaysYesAliases false [file1Raw, file3Raw] =
      .ok true := by rfl

/-- `test_validation`: boolean coercion over `good_boolean_map`. -/
theorem fidelity_good_boolean_map :
    resolveMapBoolParam "boolean_map" [] [goodBooleanMapRaw] =
      .ok [("a_true", true), ("a_yes", true), ("a_1", true),
           ("a_false", false), ("a_no", false), ("a_0", false)] := by rfl

/-! ## The claims -/

/-- Claim C1 (confirmed): merging `file1 = {always_yes: no,
channels: [bugs, daffy, tweety]}` above `file2 = {always_yes: yes,
channels: [porky, bugs, elmer]}` (file1 higher priority) resolves
`always_yes` to `false` (higher-priority source wins) and `channels` to
`("bugs", "daffy", "tweety", "porky", "elmer")`. -/
theorem claim1_two_source_merge :
    resolveBoolParam "always_yes" alwaysYesAliases false [file1Raw, file2Raw] =
        .ok false ∧
      resolveSeqParam "channels" ["channels_altname"] [file1Raw, file2Raw] =
        .ok ["bugs", "daffy", "tweety", "porky", "elmer"] :=
  ⟨rfl, rfl⟩

/-- Claim C2 (confirmed): a sequence merge over sources carrying no flags
at all concatenates the sources' item lists in priority order (highest
first) and removes duplicates keeping the first occurrence. -/
theorem claim2_flagless_sequence_merge (sources : List SeqSource)
    (h : ∀ s ∈ sources, s.keyFinal = false ∧ ∀ p ∈ s.items, p.2 = none) :
    mergeSequence sources =
      dedupFirst (concatAll (sources.map (fun s => allItems s.items))) := by
  have hrel : seqRel sources = sources :=
    relevantSources_of_no_final _ _ (fun s hs => (h s hs).1)
  have htops : seqTopsRaw sources = [] := by
    unfold seqTopsRaw
    rw [hrel]
    exact concatAll_map_eq_nil _ _ (fun s hs =>
      flaggedItems_of_unflagged _ _ ((h s (List.mem_reverse.mp hs)).2))
  have hbotsRaw : seqBottomsRaw sources = [] := by
    unfold seqBottomsRaw
    rw [hrel]
    exact concatAll_map_eq_nil _ _ (fun s hs =>
      flaggedItems_of_unflagged _ _ ((h s hs).2))
  have hbots : seqBottoms sources = [] := by
    rw [seqBottoms, hbotsRaw]; rfl
  unfold mergeSequence
  rw [htops, hbots, removeAll_nil_right, List.append_nil, List.nil_append]
  unfold seqMiddleRaw
  rw [hrel]

/-- Witness for C2: the priority-ordered flag-free sources
`[["b","c"], ["a","b"]]` merge to `("b","c","a")`. -/
theorem claim2_witness :
    mergeSequence [⟨false, [("b", none), ("c", none)]⟩,
        ⟨false, [("a", none), ("b", none)]⟩] = ["b", "c", "a"] :=
  (claim2_flagless_sequence_merge
    [⟨false, [("b", none), ("c", none)]⟩, ⟨false, [("a", none), ("b", none)]⟩]
    (by decide)).trans (by decide)

/-- Claim C3 is false as stated: in `test_list_merges`
`{"file6","file5","file4","file3"}` (priority `file3 > file4 > file5 >
file6`), `file4`'s whole sequence is `#!final`, yet the merged result is
not `file4`'s own sequence — the *lower-priority* `file6` still
contributes `elmer`/`bugs` and pins `marv` to the bottom; `final` only
discards the higher-priority `file3`. -/
theorem claim3_counterexample :
    file4channels.keyFinal = true ∧
      mergeSequence [file4channels] = ["pepé", "marv", "sam"] ∧
      mergeSequence [file3channels, file4channels, file5channels, file6channels] =
        ["pepé", "sam", "elmer", "bugs", "marv"] ∧
      mergeSequence [file3channels, file4channels, file5channels, file6channels] ≠
        mergeSequence [file4channels] ∧
      "elmer" ∈
        mergeSequence [file3channels, file4channels, file5channels, file6channels] ∧
      "elmer" ∉ allItems file4channels.items := by decide

/-- Claim C3 (amended): a `#!final` flag on an entire sequence discards
every source of strictly higher priority than the lowest-priority
`final`-flagged source; that source and all lower-priority sources still
merge normally (so the merged result equals exactly the `final` source's
own flag-resolved sequence only when it is the lowest-priority source
defining the key). -/
theorem claim3_sequence_final_discards_higher (pre post : List SeqSource)
    (s : SeqSource) (hs : s.keyFinal = true)
    (hpost : ∀ t ∈ post, t.keyFinal = false) :
    mergeSequence (pre ++ s :: post) = mergeSequence (s :: post) := by
  have hcons : relevantSources (·.keyFinal) (s :: post) = s :: post := by
    have h0 := relevantSources_last_final (·.keyFinal) [] post s hs hpost
    simpa using h0
  have hrel : seqRel (pre ++ s :: post) = seqRel (s :: post) := by
    unfold seqRel
    rw [relevantSources_last_final _ _ _ _ hs hpost, hcons]
  unfold mergeSequence seqTopsRaw seqMiddleRaw seqBottoms seqBottomsRaw
  rw [hrel]

/-- Witness for C3 (amended): with priority `file3 > file4 > file5 >
file6` and `file4`'s sequence `#!final`, the higher-priority `file3` is
discarded while `file5`, `file6` still participate. -/
theorem claim3_witness :
    mergeSequence [file3channels, file4channels, file5channels, file6channels] =
        mergeSequence [file4channels, file5channels, file6channels] ∧
      mergeSequence [file4channels, file5channels, file6channels] =
        ["pepé", "sam", "elmer", "bugs", "marv"] :=
  ⟨claim3_sequence_final_discards_higher [file3channels]
      [file5channels, file6channels] file4channels rfl (by decide),
    by decide⟩

/-- Claim C5 is false as stated: in `test_list_merges`
`{"file7","file8","file9"}`, `daffy` is flagged `#!top` in the
contributing `file7` yet does not precede the unflagged `wile`, because
`file9` flags `daffy` `#!bottom` and `bottom` prevails. -/
theorem claim5_counterexample :
    topFlaggedIn (seqRel [file9channels, file8channels, file7channels]) "daffy" ∧
      "wile" ∈ mergeSequence [file9channels, file8channels, file7channels] ∧
      ¬ topFlaggedIn (seqRel [file9channels, file8channels, file7channels]) "wile" ∧
      ¬ List.Sublist ["daffy", "wile"]
          (mergeSequence [file9channels, file8channels, file7channels]) := by
  decide

/-- Claim C5 (amended): in every merged sequence, an item flagged `top`
by a contributing source *and not flagged `bottom` by any contributing
source* precedes every item not flagged `top`, regardless of source
priority; an item flagged `bottom` by a contributing source follows every
item not flagged `bottom`. -/
theorem claim5_top_bottom_pinning (sources : List SeqSource) (x y : String) :
    (topFlaggedIn (seqRel sources) x → ¬ bottomFlaggedIn (seqRel sources) x →
        y ∈ mergeSequence sources → ¬ topFlaggedIn (seqRel sources) y →
        List.Sublist [x, y] (mergeSequence sources)) ∧
      (bottomFlaggedIn (seqRel sources) x → y ∈ mergeSequence sources →
        ¬ bottomFlaggedIn (seqRel sources) y →
        List.Sublist [y, x] (mergeSequence sources)) :=
  ⟨fun h1 h2 h3 h4 => mergeSequence_top_precedes sources h1 h2 h3 h4,
    fun h1 h2 h3 => mergeSequence_bottom_follows sources h1 h2 h3⟩

/-- Witness for C5 (amended): `sam` (`#!top` in `file7`, never `bottom`)
precedes the unflagged `wile`, and `pepé` (`#!bottom` in `file8`) follows
the unflagged `wile`, in the `{"file7","file8","file9"}` merge. -/
theorem claim5_witness :
    List.Sublist ["sam", "wile"]
        (mergeSequence [file9channels, file8channels, file7channels]) ∧
      List.Sublist ["wile", "pepé"]
        (mergeSequence [file9channels, file8channels, file7channels]) :=
  ⟨(claim5_top_bottom_pinning [file9channels, file8channels, file7channels]
        "sam" "wile").1 (by decide) (by decide) (by decide) (by decide),
    (claim5_top_bottom_pinning [file9channels, file8channels, file7channels]
        "pepé" "wile").2 (by decide) (by decide) (by decide)⟩

/-- Claim C7 (confirmed): when an item is flagged `top` in one
contributing source and `bottom` in another, the `bottom` flag prevails:
the item ends up after every item not flagged `bottom` (in the bottom
segment, not the top segment). -/
theorem claim7_bottom_prevails_over_top (sources : List SeqSource) (x y : String)
    (_hxt : topFlaggedIn (seqRel sources) x)
    (hxb : bottomFlaggedIn (seqRel sources) x)
    (hy : y ∈ mergeSequence sources)
    (hyb : ¬ bottomFlaggedIn (seqRel sources) y) :
    List.Sublist [y, x] (mergeSequence sources) :=
  mergeSequence_bottom_follows sources hxb hy hyb

/-- Witness for C7: `marv` is `#!top` in `file5` and `#!bottom` in
`file6`; in the `{"file6","file5","file4","file3"}` merge it follows the
unflagged `pepé`. -/
theorem claim7_witness :
    List.Sublist ["pepé", "marv"]
      (mergeSequence [file3channels, file4channels, file5channels, file6channels]) :=
  claim7_bottom_prevails_over_top
    [file3channels, file4channels, file5channels, file6channels] "marv" "pepé"
    (by decide) (by decide) (by decide) (by decide)

/-! ## C4: map-entry `final` -/

/-- The `proxy_servers` map of `file1`. -/
def file1proxy : MapSource :=
  ⟨false, [("http", "taz", none), ("https", "sly", none), ("s3", "pepé", none)]⟩

/-- The `proxy_servers` map of `file2`. -/
def file2proxy : MapSource :=
  ⟨false, [("http", "marv", none), ("https", "sam", none)]⟩

/-- The `proxy_servers` map of `file3` (`http: foghorn #!final`). -/
def file3proxy : MapSource :=
  ⟨false, [("http", "foghorn", some .final), ("https", "elmer", none),
           ("s3", "porky", none)]⟩

/-- A higher-priority source whose entry for `k` is `#!final`. -/
def mapSrcHigh : MapSource := ⟨false, [("k", "v1", some .final)]⟩

/-- A lower-priority source whose entry for `k` is also `#!final`. -/
def mapSrcLow : MapSource := ⟨false, [("k", "v2", some .final)]⟩

/-- Claim C4 is false as stated: a `#!final` map entry does *not* shield
the key from every lower-priority source — a lower-priority source whose
entry for the same key is itself `#!final` wins (the lowest-priority
`final` prevails, the same scan direction the tests fix for scalars and
whole sequences), so adding `mapSrcLow` below `mapSrcHigh` changes the
resolved value of `k`. -/
theorem claim4_counterexample :
    lookupEntry "k" mapSrcHigh = some ("v1", some ParameterFlag.final) ∧
      resolveMapKey [mapSrcHigh] "k" = some "v1" ∧
      resolveMapKey [mapSrcHigh, mapSrcLow] "k" = some "v2" ∧
      resolveMapKey [mapSrcHigh, mapSrcLow] "k" ≠ resolveMapKey [mapSrcHigh] "k" := by
  decide

/-- The source's entry for `k` exists and is `#!final`-flagged. -/
def entryFinal (k : String) (t : MapSource) : Bool :=
  match lookupEntry k t with
  | some e => e.2 = some ParameterFlag.final
  | none => false

/-- Claim C4 (amended): a `#!final` flag on a map entry makes that entry
win the key against every other source — higher or lower priority —
except that among several `final`-flagged entries for the same key the
lowest-priority one prevails; and the merge of any other key depends only
on the sources' entries for that key (so marking one entry `final` leaves
all sibling keys' results unchanged). -/
theorem claim4_map_entry_final_semantics (k : String) :
    (∀ (pre post : List MapSource) (s : MapSource) (v : String),
        (∀ t ∈ pre ++ s :: post, t.keyFinal = false) →
        lookupEntry k s = some (v, some ParameterFlag.final) →
        (∀ t ∈ post, entryFinal k t = false) →
        resolveMapKey (pre ++ s :: post) k = some v) ∧
    (∀ (sources sources' : List MapSource) (k' : String),
        sources.map (fun t => (t.keyFinal, lookupEntry k' t)) =
          sources'.map (fun t => (t.keyFinal, lookupEntry k' t)) →
        resolveMapKey sources k' = resolveMapKey sources' k') := by
  constructor
  · intro pre post s v hkf hlook hpost
    unfold resolveMapKey resolveKeyHits
    dsimp only
    rw [relevantSources_of_no_final _ _ (fun x hx => by
      rcases List.mem_map.mp hx with ⟨t, ht, rfl⟩
      exact hkf t ht)]
    rw [List.map_append, List.map_cons, List.filterMap_append,
      List.filterMap_cons]
    simp only [hlook]
    rw [List.filter_append]
    have hpostNil :
        ((post.map (fun t => (t.keyFinal, lookupEntry k t))).filterMap
            Prod.snd).filter
          (fun e => e.2 = some ParameterFlag.final) = [] := by
      rw [List.filter_eq_nil_iff]
      intro e he
      rcases List.mem_filterMap.mp he with ⟨a, ha, hae⟩
      rcases List.mem_map.mp ha with ⟨t, ht, rfl⟩
      have hf := hpost t ht
      unfold entryFinal at hf
      have hae' : lookupEntry k t = some e := hae
      rw [hae'] at hf
      simpa using hf
    rw [List.filter_cons_of_pos (by simp), hpostNil, List.getLast?_concat]
  · intro sources sources' k' h
    unfold resolveMapKey
    rw [h]

/-- Witness for C4 (amended): in the `{"file1","file3","file2"}` setting
the `#!final` entry `http: foghorn` of `file3` wins against both the
higher-priority `file2` and the lower-priority `file1`. -/
theorem claim4_witness :
    resolveMapKey [file2proxy, file3proxy, file1proxy] "http" = some "foghorn" :=
  (claim4_map_entry_final_semantics "http").1 [file2proxy] [file1proxy]
    file3proxy "foghorn" (by decide) (by decide) (by decide)

/-! ## C6: alias conflicts -/

/-- `collectMatches` fails with a `multipleKeys` validation error as soon
as some single source defines two or more of a parameter's
name-or-alias keys. -/
theorem collectMatches_multipleKeys (names : List String)
    (sources : List RawSource)
    (h : ∃ src ∈ sources, 2 ≤ (definedAliases names src).length) :
    ∃ ks, 2 ≤ ks.length ∧
      collectMatches names sources = .error (.multipleKeys ks) := by
  induction sources with
  | nil =>
    rcases h with ⟨src, h0, _⟩
    cases h0
  | cons src rest ih =>
    by_cases hhead : 2 ≤ (definedAliases names src).length
    · rcases hl : definedAliases names src with _ | ⟨a, _ | ⟨b, t⟩⟩
      · rw [hl] at hhead; simp at hhead
      · rw [hl] at hhead; simp at hhead
      · refine ⟨a :: b :: t, by simp, ?_⟩
        unfold collectMatches singleSourceMatch
        rw [hl]
        rfl
    · have htail : ∃ s0 ∈ rest, 2 ≤ (definedAliases names s0).length := by
        rcases h with ⟨s0, hs0, hlen⟩
        rcases List.mem_cons.mp hs0 with rfl | hmem
        · exact absurd hlen hhead
        · exact ⟨s0, hmem, hlen⟩
      rcases ih htail with ⟨ks, hlen2, hks⟩
      refine ⟨ks, hlen2, ?_⟩
      rcases hl : definedAliases names src with _ | ⟨k, _ | ⟨b, t⟩⟩
      · unfold collectMatches singleSourceMatch
        rw [hl, hks]
        rfl
      · unfold collectMatches singleSourceMatch
        rw [hl, hks]
        rfl
      · exfalso
        apply hhead
        rw [hl]
        simp

/-- Claim C6 is false as stated: in the merged source set
`{"file3", "file1"}` of `test_important_primitive_map_merges`, two
distinct alias keys of `always_yes` are defined (`always_yes` in `file1`,
`always_yes_altname2` in `file3`), yet resolution succeeds and returns
`true` — no `ValidationError` is raised when the aliases live in
different sources. -/
theorem claim6_counterexample :
    definedAliases ("always_yes" :: alwaysYesAliases) file1Raw = ["always_yes"] ∧
      definedAliases ("always_yes" :: alwaysYesAliases) file3Raw =
        ["always_yes_altname2"] ∧
      resolveBoolParam "always_yes" alwaysYesAliases false [file1Raw, file3Raw] =
        .ok true :=
  ⟨rfl, rfl, rfl⟩

/-- Claim C6 (amended): a `ValidationError` ("multiple aliases used") is
raised exactly when some *single* source defines two or more of a
parameter's name-or-alias keys — even when the values set under the
aliases are equal; aliases spread over different sources are merged
without error. -/
theorem claim6_alias_error_single_source (name : String) (aliases : List String)
    (dflt : Bool) (sources : List RawSource)
    (h : ∃ src ∈ sources, 2 ≤ (definedAliases (name :: aliases) src).length) :
    ∃ ks, 2 ≤ ks.length ∧
      resolveBoolParam name aliases dflt sources = .error (.multipleKeys ks) := by
  rcases collectMatches_multipleKeys (name :: aliases) sources h with ⟨ks, hlen, hks⟩
  refine ⟨ks, hlen, ?_⟩
  unfold resolveBoolParam
  rw [hks]
  rfl

/-- Witness for C6 (amended): the single source `too_many_aliases`
defines both `always_yes` and `always_yes_altname2` with *equal* values,
and resolution fails with the `multipleKeys` validation error. -/
theorem claim6_witness :
    (∃ ks, 2 ≤ ks.length ∧
        resolveBoolParam "always_yes" alwaysYesAliases false [tooManyAliasesRaw] =
          .error (.multipleKeys ks)) ∧
      resolveBoolParam "always_yes" alwaysYesAliases false [tooManyAliasesRaw] =
        .error (.multipleKeys ["always_yes", "always_yes_altname2"]) :=
  ⟨claim6_alias_error_single_source "always_yes" alwaysYesAliases false
      [tooManyAliasesRaw] ⟨tooManyAliasesRaw, by decide, by decide⟩,
    rfl⟩

/-! ## C8: environment-variable sequences -/

theorem splitOnDelim_ne_nil (d : Char) (l : List Char) : splitOnDelim d l ≠ [] := by
  induction l with
  | nil => simp [splitOnDelim]
  | cons c cs ih =>
    rw [splitOnDelim]
    by_cases h : c = d
    · simp [h]
    · rw [if_neg h]
      rcases hsp : splitOnDelim d cs with _ | ⟨p, ps⟩
      · exact absurd hsp ih
      · simp

theorem splitOnDelim_of_not_mem (d : Char) (l : List Char) (h : d ∉ l) :
    splitOnDelim d l = [l] := by
  induction l with
  | nil => rfl
  | cons c cs ih =>
    rw [splitOnDelim,
      if_neg (fun hc => h (by rw [hc]; exact List.mem_cons_self _ _)),
      ih (fun hc => h (List.mem_cons_of_mem _ hc))]

theorem splitOnDelim_length (d : Char) (l : List Char) :
    (splitOnDelim d l).length = l.count d + 1 := by
  induction l with
  | nil => simp [splitOnDelim]
  | cons c cs ih =>
    by_cases h : c = d
    · subst h
      rw [splitOnDelim, if_pos rfl]
      simp [List.count_cons, ih]
    · rw [splitOnDelim, if_neg h]
      rcases hsp : splitOnDelim d cs with _ | ⟨p, ps⟩
      · exact absurd hsp (splitOnDelim_ne_nil d cs)
      · rw [hsp] at ih
        simp only [List.length_cons] at ih ⊢
        rw [List.count_cons]
        simp only [beq_iff_eq, if_neg h]
        omega

/-- Claim C8 (confirmed): a sequence-typed parameter set through its
`{APPNAME}_{KEY}` environment variable resolves to the empty sequence
when the raw value is empty (not to a one-element sequence holding the
empty string), to a single-element sequence when the raw value contains
no delimiter, and in general to one element per delimited segment. -/
theorem claim8_env_sequence_parsing (app key raw : String)
    (env : List (String × String))
    (h : env.lookup (envKey app key) = some raw) :
    (raw = "" → loadEnvSeqParam app key env = some []) ∧
      (raw ≠ "" → defaultDelim ∉ raw.toList →
        loadEnvSeqParam app key env = some [raw]) ∧
      (raw ≠ "" →
        (envSeqValue raw).length = raw.toList.count defaultDelim + 1) := by
  have hload : loadEnvSeqParam app key env = some (envSeqValue raw) := by
    unfold loadEnvSeqParam
    rw [h]
    rfl
  refine ⟨fun he => ?_, fun hne hnd => ?_, fun hne => ?_⟩
  · rw [hload, he]
    rfl
  · rw [hload]
    unfold envSeqValue
    rw [if_neg hne, splitOnDelim_of_not_mem _ _ hnd]
    rfl
  · unfold envSeqValue
    rw [if_neg hne, List.length_map, splitOnDelim_length]

/-- Witness for C8: `MYAPP_CHANNELS=""` gives the empty sequence,
`MYAPP_CHANNELS="channel1"` a singleton, and `"channel1,channel2"` splits
into two segments. -/
theorem claim8_witness :
    loadEnvSeqParam "myapp" "channels" [("MYAPP_CHANNELS", "")] = some [] ∧
      loadEnvSeqParam "myapp" "channels" [("MYAPP_CHANNELS", "channel1")] =
        some ["channel1"] ∧
      (envSeqValue "channel1,channel2").length = 2 :=
  ⟨(claim8_env_sequence_parsing "myapp" "channels" ""
      [("MYAPP_CHANNELS", "")] rfl).1 rfl,
    (claim8_env_sequence_parsing "myapp" "channels" "channel1"
      [("MYAPP_CHANNELS", "channel1")] rfl).2.1 (by decide) (by decide),
    ((claim8_env_sequence_parsing "myapp" "channels" "channel1,channel2"
      [("MYAPP_CHANNELS", "channel1,channel2")] rfl).2.2 (by decide)).trans
      (by decide)⟩

/-! ## C9: aggregated validation -/

/-- Claim C9 (confirmed): whenever two declared parameters both fail to
resolve, `validate_configuration` reports both failures in its single
aggregate error — it does not stop at the first failing parameter. -/
theorem claim9_validate_aggregates (schema : List ParamSpec)
    (sources : List RawSource) (p q : ParamSpec) (e₁ e₂ : ConfigError)
    (hp : p ∈ schema) (hq : q ∈ schema)
    (hpe : resolveParam p sources = .error e₁)
    (hqe : resolveParam q sources = .error e₂) :
    ∃ errs, validateConfiguration schema sources = .error errs ∧
      (p.name, e₁) ∈ errs ∧ (q.name, e₂) ∈ errs := by
  have hpmem : (p.name, e₁) ∈ schema.filterMap
      (fun r => match resolveParam r sources with
        | .error e => some (r.name, e)
        | .ok _ => none) := by
    refine List.mem_filterMap.mpr ⟨p, hp, ?_⟩
    rw [hpe]
  have hqmem : (q.name, e₂) ∈ schema.filterMap
      (fun r => match resolveParam r sources with
        | .error e => some (r.name, e)
        | .ok _ => none) := by
    refine List.mem_filterMap.mpr ⟨q, hq, ?_⟩
    rw [hqe]
  unfold validateConfiguration
  rcases hm : schema.filterMap
      (fun r => match resolveParam r sources with
        | .error e => some (r.name, e)
        | .ok _ => none) with _ | ⟨x, xs⟩
  · rw [hm] at hpmem
    cases hpmem
  · rw [hm] at hpmem hqmem
    exact ⟨x :: xs, rfl, hpmem, hqmem⟩

/-- A source making two declared parameters fail:
`always_yes: yeah` (bad boolean) and `always_an_int: nope` (bad int). -/
def badBoolIntRaw : RawSource :=
  [("always_yes", .scalar "yeah" none),
   ("always_an_int", .scalar "nope" none)]

/-- Witness for C9: with both `always_yes` and `always_an_int` failing,
the aggregate error of `validate_configuration` contains both. -/
theorem claim9_witness :
    ∃ errs, validateConfiguration sampleSchema [badBoolIntRaw] = .error errs ∧
      ("always_yes", ConfigError.validation "always_yes") ∈ errs ∧
      ("always_an_int", ConfigError.validation "always_an_int") ∈ errs :=
  claim9_validate_aggregates sampleSchema [badBoolIntRaw]
    ⟨"always_yes", alwaysYesAliases, .pbool false⟩
    ⟨"always_an_int", [], .pint 0⟩
    (ConfigError.validation "always_yes") (ConfigError.validation "always_an_int")
    (by decide) (by decide) rfl rfl

/-! ## C10: singleton source sets -/

/-- Claim C10 is false as stated: the singleton source set `{file9}`
resolves `channels` to `("marv","sam","pepé","daffy")`, a reordering of
the source's own value `("sam","pepé","marv","daffy")` — a singleton
merge still applies the source's internal `top`/`bottom` pinning (and
de-duplication), so it is not the identity. -/
theorem claim10_counterexample :
    resolveSeqParam "channels" ["channels_altname"] [file9Raw] =
        .ok ["marv", "sam", "pepé", "daffy"] ∧
      allItems file9channels.items = ["sam", "pepé", "marv", "daffy"] ∧
      (["marv", "sam", "pepé", "daffy"] : List String) ≠
        ["sam", "pepé", "marv", "daffy"] :=
  ⟨rfl, rfl, by decide⟩

/-- Claim C10 (amended): merging a singleton source set reproduces the
source's own type-validated values unchanged for primitives and maps
unconditionally, and for sequences whose items are unflagged and
duplicate-free; flagged or duplicated sequence items are still reordered
or de-duplicated by the source's own flag resolution. -/
theorem claim10_singleton_source (s : SeqSource) (m : MapSource) (v : String)
    (fin : Bool) (k : String)
    (hflag : ∀ p ∈ s.items, p.2 = none) (hnodup : (allItems s.items).Nodup) :
    mergePrimitive [(v, fin)] = some v ∧
      resolveMapKey [m] k = (lookupEntry k m).map Prod.fst ∧
      mergeSequence [s] = allItems s.items := by
  refine ⟨by cases fin <;> rfl, ?_, ?_⟩
  · unfold resolveMapKey resolveKeyHits relevantSources
    rcases hm : lookupEntry k m with _ | ⟨w, fl⟩
    · cases hkf : m.keyFinal <;> simp [takeToFirstFinal, hm, hkf]
    · rcases fl with _ | f
      · cases hkf : m.keyFinal <;> simp [takeToFirstFinal, hm, hkf]
      · cases hkf : m.keyFinal <;> cases f <;> simp [takeToFirstFinal, hm, hkf]
  · have hrel : seqRel [s] = [s] := by
      unfold seqRel relevantSources
      cases hp : s.keyFinal <;> simp [takeToFirstFinal, hp]
    have htop : seqTopsRaw [s] = [] := by
      unfold seqTopsRaw
      rw [hrel]
      simp [concatAll, flaggedItems_of_unflagged _ _ hflag]
    have hbot : seqBottoms [s] = [] := by
      unfold seqBottoms seqBottomsRaw
      rw [hrel]
      simp [concatAll, flaggedItems_of_unflagged _ _ hflag, dedupFirst, dedupAux]
    unfold mergeSequence
    rw [htop, hbot, removeAll_nil_right, List.append_nil, List.nil_append]
    unfold seqMiddleRaw
    rw [hrel]
    simp only [List.map_cons, List.map_nil, concatAll_cons, concatAll_nil,
      List.append_nil]
    exact dedupAux_of_nodup hnodup (fun x _ hc => (List.not_mem_nil x) hc)

/-- Witness for C10 (amended): a flag-free singleton source round-trips
its primitive, map and sequence values unchanged. -/
theorem claim10_witness :
    mergePrimitive [("true", false)] = some "true" ∧
      resolveMapKey [⟨false, [("a_yes", "yes", none)]⟩] "a_yes" = some "yes" ∧
      mergeSequence [⟨false, [("a", none), ("b", none)]⟩] = ["a", "b"] := by
  have h := claim10_singleton_source ⟨false, [("a", none), ("b", none)]⟩
    ⟨false, [("a_yes", "yes", none)]⟩ "true" false "a_yes" (by decide) (by decide)
  exact ⟨h.1, h.2.1.trans (by decide), h.2.2⟩

end CondaConfig
